import Mathlib

set_option maxRecDepth 8000

/-!
Shallow embedding of the BridgeSpy Flipper plugin (src/src/index.tsx) and
verification of its specification claims.

Conventions of the embedding:
* JS numbers holding epoch-millis timestamps are modelled as `Int` (they are
  integral in practice; subtraction may be negative for future timestamps).
* JS exceptions (e.g. `TypeError` from property access on `undefined`, or
  `JSON.stringify` throwing on cyclic values) are modelled with
  `Except Unit`: `.error ()` is a thrown exception propagating to the caller.
* `toLocaleString` formatting of the `time` column is environment/locale
  dependent, so it is a parameter `fmtTime : Int → String` of `buildRow`;
  all theorems quantify over it.
* The arbitrary structured `args` value of a raw event is modelled by
  `ArgsVal`: a serializable case (a string) and a non-serializable case
  (`cyclic`), on which `JSON.stringify` throws.
-/

set_option autoImplicit false

namespace BridgeSpy

/-- The structured `args` value carried by a raw event (`any` in the source).
`str` is a serializable value; `cyclic` models a cyclic / non-serializable
structure on which `JSON.stringify` throws a `TypeError`. -/
inductive ArgsVal where
  | str (s : String)
  | cyclic
  deriving DecidableEq, Repr

/-- The `method: string | number` field of the source's `DataRow`. -/
inductive StrOrNum where
  | s (v : String)
  | n (v : Int)
  deriving DecidableEq, Repr

/-- Type `DataRow` from the source: the raw event delivered by the host.
`module` is `Option` because the source treats it as possibly absent
(`r.module ?? ""`). -/
structure DataRow where
  id : String
  time : Int
  type : String
  module : Option String
  method : StrOrNum
  args : ArgsVal
  deriving DecidableEq, Repr

/-- The column record of a `MessageRow`. Fields `type`, `method`, `args`
are `value?: string` in the source type, hence `Option String`;
`index`, `time`, `module` are required strings. -/
structure Columns where
  index : String
  time : String
  type : Option String
  module : String
  method : Option String
  args : Option String
  deriving DecidableEq, Repr

/-- Type `MessageRow` from the source. `payload` is `payload?: any`, hence
`Option DataRow`. -/
structure MessageRow where
  columns : Columns
  timestamp : Int
  payload : Option DataRow
  key : String
  deriving DecidableEq, Repr

/-- An active table filter: the source uses only the `key` and `value`
fields of flipper's `Filter`. -/
structure TblFilter where
  key : String
  value : String
  deriving DecidableEq, Repr

/-- Type `PersistedState` from the source. -/
structure PersistedState where
  messageRows : List MessageRow
  deriving DecidableEq, Repr

/-- Component `State` from the source. -/
structure State where
  selectedId : Option String
  filters : List TblFilter
  messagesPerSecond : Int
  bandwidthPerSecond : ℚ
  deriving DecidableEq, Repr

/-- JS dynamic property access `row.columns[k]` followed by reading
`.value`: `none` means `row.columns[k]` is `undefined` (the key is not one
of the six columns), so that reading `.value` on it throws; `some v` gives
the entry's `value` field, itself possibly `undefined` (`v = none`). -/
def columnValue (row : MessageRow) (k : String) : Option (Option String) :=
  if k = "index" then some (some row.columns.index)
  else if k = "time" then some (some row.columns.time)
  else if k = "type" then some row.columns.type
  else if k = "module" then some (some row.columns.module)
  else if k = "method" then some row.columns.method
  else if k = "args" then some row.columns.args
  else none

/-- The loop-body expression
`row.columns[filter.key as keyof typeof columns].value === filter.value`:
throws (`.error ()`) when the key is not a column of the row; otherwise the
strict-equality result (`undefined === filter.value` is `false`). -/
def evalFilterExpr (row : MessageRow) (f : TblFilter) : Except Unit Bool :=
  match columnValue row f.key with
  | none => .error ()
  | some v => .ok (v == some f.value)

/-- The filter-evaluation portion of `filterMessages`' per-row callback:
empty filter set passes every row; otherwise the `for` loop returns the
first filter's equality result on its first iteration. -/
def matchesFilters (filters : List TblFilter) (row : MessageRow) : Except Unit Bool :=
  match filters with
  | [] => .ok true
  | f :: _ => evalFilterExpr row f

/-- The full per-row callback of `filterMessages`: rows older than the
5-second sub-window are rejected before any filter is consulted. -/
def rowPredicate (now : Int) (filters : List TblFilter) (row : MessageRow) :
    Except Unit Bool :=
  if now - row.timestamp > 5 * 1000 then .ok false
  else matchesFilters filters row

/-- Semantics of `Array.prototype.filter` with a possibly-throwing callback: callbacks
run left to right and the first thrown exception aborts the whole call. -/
def filterRows (now : Int) (filters : List TblFilter) :
    List MessageRow → Except Unit (List MessageRow)
  | [] => .ok []
  | r :: rs => do
    let b ← rowPredicate now filters r
    let rest ← filterRows now filters rs
    .ok (if b then r :: rest else rest)

/-! ### JSON serialization (`JSON.stringify`), modelled on well-formed strings.

Property order follows the object-literal insertion order of the source;
`undefined`-valued properties are omitted, as `JSON.stringify` does. -/

/-- Hex digit for JSON `\u00XX` escapes (lowercase, as `JSON.stringify`
emits). -/
def hexDigit (n : Nat) : Char :=
  if n < 10 then Char.ofNat (48 + n) else Char.ofNat (87 + n)

/-- JSON string escaping of one character: `"`, `\`, and the named control
escapes, other control characters as `\u00XX`. -/
def escapeChar (c : Char) : String :=
  if c = Char.ofNat 34 then "\\\""
  else if c = Char.ofNat 92 then "\\\\"
  else if c = Char.ofNat 8 then "\\b"
  else if c = Char.ofNat 9 then "\\t"
  else if c = Char.ofNat 10 then "\\n"
  else if c = Char.ofNat 12 then "\\f"
  else if c = Char.ofNat 13 then "\\r"
  else if c.toNat < 32 then
    "\\u00" ++ String.singleton (hexDigit (c.toNat / 16)) ++
      String.singleton (hexDigit (c.toNat % 16))
  else String.singleton c

/-- The `JSON.stringify` image of a string value: quoted, with escapes. -/
def jsonStr (s : String) : String :=
  "\"" ++ String.join (s.toList.map escapeChar) ++ "\""

/-- The `JSON.stringify` image of the structured `args` value; throws on a cyclic
structure. For a string value this is also exactly the expression
`JSON.stringify(r.args)` used to fill the `args` column in `buildRow`. -/
def jsonArgs : ArgsVal → Except Unit String
  | .str s => .ok (jsonStr s)
  | .cyclic => .error ()

/-- The expression `(r.method).toString()`. -/
def methodToString : StrOrNum → String
  | .s v => v
  | .n v => toString v

/-- JSON of a `string | number` value. -/
def jsonMethod : StrOrNum → String
  | .s v => jsonStr v
  | .n v => toString v

/-- The `JSON.stringify` image of a raw-event payload (a `DataRow`); an absent
`module` property is omitted; throws when `args` is not serializable. -/
def jsonDataRow (r : DataRow) : Except Unit String := do
  let a ← jsonArgs r.args
  .ok ("\x7b\"id\":" ++ jsonStr r.id ++ ",\"time\":" ++ toString r.time ++
    ",\"type\":" ++ jsonStr r.type ++
    (match r.module with
      | some m => ",\"module\":" ++ jsonStr m
      | none => "") ++
    ",\"method\":" ++ jsonMethod r.method ++ ",\"args\":" ++ a ++ "\x7d")

/-- JSON of a non-filterable column entry (`index`, `time`). -/
def jsonColPlain (v : String) : String :=
  "\x7b\"value\":" ++ jsonStr v ++ "\x7d"

/-- JSON of a filterable column entry whose `value` is required
(`module`). -/
def jsonColReq (v : String) : String :=
  "\x7b\"value\":" ++ jsonStr v ++ ",\"isFilterable\":true\x7d"

/-- JSON of a filterable column entry whose `value` may be `undefined`
(`type`, `method`, `args`); an `undefined` value is omitted. -/
def jsonColOpt : Option String → String
  | some v => "\x7b\"value\":" ++ jsonStr v ++ ",\"isFilterable\":true\x7d"
  | none => "\x7b\"isFilterable\":true\x7d"

/-- JSON of the `columns` record, in insertion order. -/
def jsonColumns (c : Columns) : String :=
  "\x7b\"index\":" ++ jsonColPlain c.index ++ ",\"time\":" ++ jsonColPlain c.time ++
    ",\"type\":" ++ jsonColOpt c.type ++ ",\"module\":" ++ jsonColReq c.module ++
    ",\"method\":" ++ jsonColOpt c.method ++ ",\"args\":" ++ jsonColOpt c.args ++ "\x7d"

/-- The `JSON.stringify` image of one `MessageRow` (insertion order: `columns`,
`key`, `payload`, `timestamp`); an `undefined` payload is omitted; throws
when the payload's `args` is not serializable. -/
def jsonMessageRow (m : MessageRow) : Except Unit String := do
  let p ← match m.payload with
    | some r => (jsonDataRow r).map (fun s => ",\"payload\":" ++ s)
    | none => .ok ""
  .ok ("\x7b\"columns\":" ++ jsonColumns m.columns ++ ",\"key\":" ++ jsonStr m.key ++
    p ++ ",\"timestamp\":" ++ toString m.timestamp ++ "\x7d")

/-- The `JSON.stringify` image of an array of `MessageRow`s. -/
def jsonMessageRows (l : List MessageRow) : Except Unit String := do
  let parts ← l.mapM jsonMessageRow
  .ok ("[" ++ String.intercalate "," parts ++ "]")

/-! ### Metrics (`getSizeInBytes`, `getMessagesPerSecond`,
`getBandwidthPerSecond`) -/

/-- The dynamic type of the single argument `getSizeInBytes` is called
with: either a string or (at the one call site in the source) the filtered
array of `MessageRow`s. -/
inductive SizeArg where
  | str (s : String)
  | rows (l : List MessageRow)

/-- Function `getSizeInBytes`: a string is measured directly, anything else is
`JSON.stringify`ed first; the byte count is the UTF-8 encoding length
(`new TextEncoder().encode(str).length`). -/
def getSizeInBytes : SizeArg → Except Unit Nat
  | .str s => .ok s.utf8ByteSize
  | .rows l => (jsonMessageRows l).map String.utf8ByteSize

/-- Function `getMessagesPerSecond`: `Math.ceil(filterMessages().length / 5)`
(`Rat.ceil` is the executable ceiling; it agrees with the mathematical
one, proved below). -/
def getMessagesPerSecond (now : Int) (filters : List TblFilter)
    (rows : List MessageRow) : Except Unit Int :=
  (filterRows now filters rows).map (fun l => ((l.length : ℚ) / 5).ceil)

/-- Function `getBandwidthPerSecond`: `getSizeInBytes(filterMessages()) / 5` —
note the argument is the whole filtered row array, not the payloads. -/
def getBandwidthPerSecond (now : Int) (filters : List TblFilter)
    (rows : List MessageRow) : Except Unit ℚ := do
  let l ← filterRows now filters rows
  let n ← getSizeInBytes (.rows l)
  .ok ((n : ℚ) / 5)

/-! ### Row model and persisted-state reducer -/

/-- The body of `buildRow`'s `map` for one event: formats `time` (locale
dependent, abstracted as `fmtTime`), defaults `module` to `""`, coerces
`method` to string, and serializes `args` with `JSON.stringify` — which
throws on a non-serializable value, there is no local catch. -/
def buildOne (fmtTime : Int → String) (r : DataRow) : Except Unit MessageRow := do
  let a ← jsonArgs r.args
  .ok { columns := { index := r.id, time := fmtTime r.time, type := some r.type,
                     module := r.module.getD "", method := some (methodToString r.method),
                     args := some a },
        key := r.id, payload := some r, timestamp := r.time }

/-- Function `buildRow` on a batch (a single event is normalized to a one-element
batch by the source). `Array.prototype.map` with a throwing callback
aborts at the first failing element. -/
def buildRow (fmtTime : Int → String) : List DataRow → Except Unit (List MessageRow)
  | [] => .ok []
  | r :: rs => do
    let m ← buildOne fmtTime r
    let rest ← buildRow fmtTime rs
    .ok (m :: rest)

/-- Function `persistedStateReducer`: on `"newRow"`, append the built rows and
prune rows older than 5 minutes; any other method returns the state
unchanged. The disabled CSV-writer block is dead code and is not
modelled. -/
def persistedStateReducer (fmtTime : Int → String) (now : Int)
    (persistedState : PersistedState) (method : String) (payload : List DataRow) :
    Except Unit PersistedState :=
  if method = "newRow" then do
    let newRows ← buildRow fmtTime payload
    let kept := (persistedState.messageRows ++ newRows).filter
      (fun row => decide (now - row.timestamp < 5 * 60 * 1000))
    .ok { messageRows := kept }
  else .ok persistedState

/-- A sequence of `"newRow"` appends, each with its own wall-clock time. -/
def applyAppends (fmtTime : Int → String) (ps : PersistedState) :
    List (Int × List DataRow) → Except Unit PersistedState
  | [] => .ok ps
  | b :: rest => do
    let ps1 ← persistedStateReducer fmtTime b.1 ps "newRow" b.2
    applyAppends fmtTime ps1 rest

/-! ### Selection / view controller -/

/-- What the detail sidebar renders. -/
inductive SidebarView where
  | placeholder
  | details (payload : Option DataRow)
  deriving DecidableEq

/-- Function `renderSidebar`: with no selection, or when no row's `key` equals the
selected id, the placeholder; otherwise the found row's payload. -/
def renderSidebar (selectedId : Option String) (messageRows : List MessageRow) :
    SidebarView :=
  match selectedId with
  | none => .placeholder
  | some id =>
    match messageRows.find? (fun row => row.key == id) with
    | some m => .details m.payload
    | none => .placeholder

/-- Function `clear`: resets the selection and empties the persisted rows. -/
def clear (s : State) : State × PersistedState :=
  ({ s with selectedId := none }, { messageRows := [] })

/-- Function `onRowHighlighted`: only a non-empty key list changes state, setting
`selectedId` to the first key. -/
def onRowHighlighted (s : State) (keys : List String) : State :=
  match keys with
  | [] => s
  | k :: _ => { s with selectedId := some k }

/-! ### Spec-side definitions (for comparison with the source-derived ones) -/

/-- Whether a key names one of the six columns of every `MessageRow`. -/
def keyInColumns (k : String) : Bool :=
  k == "index" || k == "time" || k == "type" || k == "module" ||
    k == "method" || k == "args"

/-- Whether a row is inside the 5-second sampling sub-window
(`now - timestamp <= 5 seconds`). -/
def inSubWindow (now : Int) (row : MessageRow) : Bool :=
  decide (now - row.timestamp ≤ 5 * 1000)

/-- Whether a row passes the active filter set, per the documented
observed semantics: an empty set passes everything, a non-empty set is
decided by its first filter's column equality alone. -/
def passesFilterSet (filters : List TblFilter) (row : MessageRow) : Bool :=
  match filters with
  | [] => true
  | f :: _ => (columnValue row f.key).getD none == some f.value

/-- The number of buffer rows inside the 5-second sub-window that pass
the active filter set. -/
def matchedCount (now : Int) (filters : List TblFilter)
    (rows : List MessageRow) : Nat :=
  (rows.filter (fun r => inSubWindow now r && passesFilterSet filters r)).length

/-- The first filter of the set (if any) names an existing column, so the
per-row predicate cannot throw. -/
def filtersHeadValid : List TblFilter → Prop
  | [] => True
  | f :: _ => keyInColumns f.key = true

/-- Spec-side metric of claim C3, following the spec's words: the total
UTF-8 byte size of the matched rows' original payloads (each payload
measured as a raw string or through its structural stringification; an
absent payload contributes nothing). -/
def specTotalPayloadBytes (l : List MessageRow) : Except Unit Nat := do
  let sizes ← l.mapM (fun m =>
    match m.payload with
    | some p => (jsonDataRow p).map String.utf8ByteSize
    | none => .ok 0)
  .ok sizes.sum

/-- The rows of each batch as ingested, in ingestion order (batches in
order, batch-internal order preserved). -/
def ingestedRows (fmtTime : Int → String)
    (batches : List (Int × List DataRow)) : List MessageRow :=
  (batches.map (fun b => (buildRow fmtTime b.2).toOption.getD [])).flatten

/-! ### Concrete sample data used by witnesses and counterexamples -/

/-- A fixed stand-in for the locale-dependent `toLocaleString`. -/
def fmtT : Int → String := fun _ => "T"

/-- A small concrete raw event. -/
def sampleEvent (k : String) (t : Int) : DataRow :=
  { id := k, time := t, type := "t", module := some "m",
    method := .s "f", args := .str "x" }

/-- The view row `buildRow` derives from `sampleEvent k t` under `fmtT`. -/
def sampleRow (k : String) (t : Int) : MessageRow :=
  { columns := { index := k, time := "T", type := some "t", module := "m",
                 method := some "f", args := some "\"x\"" },
    timestamp := t, payload := some (sampleEvent k t), key := k }

/-- A raw event whose `args` is a cyclic (non-serializable) structure. -/
def cyclicEvent : DataRow :=
  { id := "c", time := 0, type := "t", module := none,
    method := .n 2, args := .cyclic }

/-! ### Helper lemmas -/

theorem columnValue_eq_none_iff (row : MessageRow) (k : String) :
    columnValue row k = none ↔ keyInColumns k = false := by
  unfold columnValue keyInColumns
  split_ifs with h1 h2 h3 h4 h5 h6 <;> simp_all

/-- The executable `Rat.ceil` agrees with the mathematical ceiling. -/
theorem ratCeil_eq_intCeil (q : ℚ) : q.ceil = ⌈q⌉ := by
  unfold Rat.ceil
  split
  · next h =>
    conv_rhs => rw [← Rat.coe_int_num_of_den_eq_one h]
    rw [Int.ceil_intCast]
  · next h =>
    have hfl : ⌊q⌋ = q.num / q.den := Rat.floor_def
    have hne : ((⌊q⌋ : ℚ)) ≠ q := by
      intro hcontra
      exact h (by rw [← hcontra]; exact Rat.den_intCast _)
    have h1 : (⌊q⌋ : ℚ) < q := lt_of_le_of_ne (Int.floor_le q) hne
    rw [eq_comm, Int.ceil_eq_iff, ← hfl]
    constructor
    · push_cast
      simpa using h1
    · have := (Int.lt_floor_add_one q).le
      push_cast
      exact_mod_cast this

theorem rowPredicate_eq_ok (now : Int) (filters : List TblFilter)
    (r : MessageRow) (h : filtersHeadValid filters) :
    rowPredicate now filters r = .ok (inSubWindow now r && passesFilterSet filters r) := by
  cases filters with
  | nil =>
    simp only [rowPredicate, matchesFilters, inSubWindow, passesFilterSet]
    by_cases hw : now - r.timestamp > 5 * 1000
    · rw [if_pos hw, decide_eq_false (not_le.mpr hw)]
      rfl
    · rw [if_neg hw, decide_eq_true (not_lt.mp hw)]
      rfl
  | cons f rest =>
    have hk : keyInColumns f.key = true := h
    obtain ⟨v, hv⟩ : ∃ v, columnValue r f.key = some v := by
      cases hcv : columnValue r f.key with
      | none =>
        rw [(columnValue_eq_none_iff r f.key).mp hcv] at hk
        cases hk
      | some v => exact ⟨v, rfl⟩
    simp only [rowPredicate, matchesFilters, evalFilterExpr, inSubWindow,
      passesFilterSet, hv, Option.getD_some]
    by_cases hw : now - r.timestamp > 5 * 1000
    · rw [if_pos hw, decide_eq_false (not_le.mpr hw)]
      rfl
    · rw [if_neg hw, decide_eq_true (not_lt.mp hw)]
      rfl

theorem filterRows_eq_ok (now : Int) (filters : List TblFilter)
    (rows : List MessageRow) (h : filtersHeadValid filters) :
    filterRows now filters rows =
      .ok (rows.filter (fun r => inSubWindow now r && passesFilterSet filters r)) := by
  induction rows with
  | nil => rfl
  | cons r rs ih =>
    unfold filterRows
    rw [rowPredicate_eq_ok now filters r h, ih]
    cases hb : inSubWindow now r && passesFilterSet filters r <;>
      simp [List.filter_cons, hb, Bind.bind, Except.bind]

theorem persistedStateReducer_newRow (fmtTime : Int → String) (now : Int)
    (ps : PersistedState) (payload : List DataRow) :
    persistedStateReducer fmtTime now ps "newRow" payload =
      (buildRow fmtTime payload).map (fun nr =>
        { messageRows := (ps.messageRows ++ nr).filter
            (fun row => decide (now - row.timestamp < 5 * 60 * 1000)) }) := by
  unfold persistedStateReducer
  cases hb : buildRow fmtTime payload with
  | error e => rfl
  | ok nr => rfl

/-! ### Claims -/

/-- C1: for every row inside the 5-second sub-window and every non-empty
filter set, the per-row test of `filterMessages` returns exactly the
equality result of the first filter
(`row.columns[filter.key].value === filter.value`) and never consults the
remaining filters: the result is unchanged under replacing the tail of
the filter set, so a row failing the first filter but satisfying a later
one does not match. -/
theorem c1_first_filter_only (f : TblFilter) (rest rest' : List TblFilter)
    (row : MessageRow) (now : Int)
    (h : ¬ (now - row.timestamp > 5 * 1000)) :
    rowPredicate now (f :: rest) row = evalFilterExpr row f ∧
    rowPredicate now (f :: rest) row = rowPredicate now (f :: rest') row := by
  constructor
  · unfold rowPredicate
    rw [if_neg h]
    rfl
  · unfold rowPredicate
    rw [if_neg h, if_neg h]
    rfl

/-- Witness for C1: a concrete row that fails the first filter but
satisfies the second still does not match. -/
theorem c1_witness :
    (¬ ((0 : Int) - (sampleRow "a" 0).timestamp > 5 * 1000)) ∧
    rowPredicate 0 [{ key := "type", value := "nope" }, { key := "type", value := "t" }]
        (sampleRow "a" 0) =
      evalFilterExpr (sampleRow "a" 0) { key := "type", value := "nope" } ∧
    evalFilterExpr (sampleRow "a" 0) { key := "type", value := "nope" } = .ok false := by
  refine ⟨by decide, ?_, by rfl⟩
  exact (c1_first_filter_only { key := "type", value := "nope" }
    [{ key := "type", value := "t" }] [] (sampleRow "a" 0) 0 (by decide)).1

/-- C2: immediately after every successful `"newRow"` append, every row
retained in `messageRows` satisfies `now - timestamp < 5 minutes`, where
`now` is the wall-clock time of that append; older rows are removed by
the append itself. -/
theorem c2_eviction_invariant (fmtTime : Int → String) (now : Int)
    (ps : PersistedState) (payload : List DataRow) (ps' : PersistedState)
    (h : persistedStateReducer fmtTime now ps "newRow" payload = .ok ps') :
    ∀ r ∈ ps'.messageRows, now - r.timestamp < 5 * 60 * 1000 := by
  rw [persistedStateReducer_newRow] at h
  cases hb : buildRow fmtTime payload with
  | error e => rw [hb] at h; exact Except.noConfusion h
  | ok nr =>
    rw [hb] at h
    simp only [Except.map] at h
    injection h with h'
    intro r hr
    rw [← h'] at hr
    have := (List.mem_filter.mp hr).2
    exact of_decide_eq_true this

/-- Witness for C2: a concrete append at time 10 keeps the fresh row and
evicts a 400-second-old row. -/
theorem c2_witness :
    persistedStateReducer fmtT 10
        { messageRows := [sampleRow "a" 0, sampleRow "old" (-400000)] } "newRow" [] =
      .ok { messageRows := [sampleRow "a" 0] } ∧
    ∀ r ∈ [sampleRow "a" 0], (10 : Int) - r.timestamp < 5 * 60 * 1000 := by
  constructor
  · rfl
  · exact c2_eviction_invariant fmtT 10
      { messageRows := [sampleRow "a" 0, sampleRow "old" (-400000)] } []
      { messageRows := [sampleRow "a" 0] } rfl

/-- C3 fails as stated: at a concrete single matched row, the code's
bandwidth value divides the byte size of the JSON of the whole
`MessageRow` array (332 bytes here) by 5, while the claim's value — the
total byte size of the matched rows' payloads (67 bytes here) divided by
5 — differs. -/
theorem c3_counterexample :
    getSizeInBytes (.rows [sampleRow "a" 0]) = .ok 332 ∧
    specTotalPayloadBytes [sampleRow "a" 0] = .ok 67 ∧
    getBandwidthPerSecond 0 [] [sampleRow "a" 0] ≠
      (specTotalPayloadBytes [sampleRow "a" 0]).map (fun n => ((n : ℚ) / 5)) := by
  have hA : getBandwidthPerSecond 0 [] [sampleRow "a" 0] = .ok ((332 : ℚ) / 5) := by rfl
  have hB : (specTotalPayloadBytes [sampleRow "a" 0]).map (fun n => ((n : ℚ) / 5)) =
      .ok ((67 : ℚ) / 5) := by rfl
  refine ⟨by rfl, by rfl, ?_⟩
  rw [hA, hB]
  intro hc
  injection hc with hc'
  norm_num at hc'

/-- C3 (amended): on a sampler tick, `bytesPerSecond` equals the UTF-8
byte length of the JSON stringification of the entire matched-rows array
(the full `MessageRow` objects — columns, key, payload, timestamp), not of
the payloads alone, divided by 5. -/
theorem c3_amended_bandwidth (now : Int) (filters : List TblFilter)
    (rows l : List MessageRow) (s : String)
    (h1 : filterRows now filters rows = .ok l)
    (h2 : jsonMessageRows l = .ok s) :
    getBandwidthPerSecond now filters rows = .ok ((s.utf8ByteSize : ℚ) / 5) := by
  unfold getBandwidthPerSecond getSizeInBytes
  rw [h1]
  simp [Bind.bind, Except.bind, h2, Except.map]

/-- A minimal concrete row used to witness the amended bandwidth claim. -/
def minRow : MessageRow :=
  { columns := { index := "", time := "", type := none, module := "",
                 method := none, args := none },
    timestamp := 0, payload := none, key := "" }

/-- The JSON text of `[minRow]`, 210 UTF-8 bytes. -/
def minRowJson : String :=
  "[\x7b\"columns\":\x7b\"index\":\x7b\"value\":\"\"\x7d,\"time\":\x7b\"value\":\"\"\x7d," ++
  "\"type\":\x7b\"isFilterable\":true\x7d,\"module\":\x7b\"value\":\"\",\"isFilterable\":true\x7d," ++
  "\"method\":\x7b\"isFilterable\":true\x7d,\"args\":\x7b\"isFilterable\":true\x7d\x7d," ++
  "\"key\":\"\",\"timestamp\":0\x7d]"

/-- Witness for the amended C3 at a concrete matched row. -/
theorem c3_witness :
    filterRows 0 [] [minRow] = .ok [minRow] ∧
    jsonMessageRows [minRow] = .ok minRowJson ∧
    getBandwidthPerSecond 0 [] [minRow] = .ok ((minRowJson.utf8ByteSize : ℚ) / 5) ∧
    minRowJson.utf8ByteSize = 210 := by
  refine ⟨by rfl, by rfl, ?_, by rfl⟩
  exact c3_amended_bandwidth 0 [] [minRow] [minRow] minRowJson rfl rfl

/-- C4: on a sampler tick, `messagesPerSecond` equals the ceiling of a
fifth of the number of buffer rows inside the trailing 5-second sub-window
(`now - timestamp <= 5s`) that pass the active filter set — provided the
filter set's head (if any) names an existing column, so that the predicate
does not throw. -/
theorem c4_messages_per_second (now : Int) (filters : List TblFilter)
    (rows : List MessageRow) (h : filtersHeadValid filters) :
    getMessagesPerSecond now filters rows =
      .ok ⌈(matchedCount now filters rows : ℚ) / 5⌉ := by
  unfold getMessagesPerSecond matchedCount
  rw [filterRows_eq_ok now filters rows h]
  simp only [Except.map]
  rw [ratCeil_eq_intCeil]

/-- Ten concrete rows with timestamp 0. -/
def tenRows : List MessageRow :=
  (List.range 10).map (fun i => sampleRow (toString i) 0)

/-- Witness for C4 at the claim's boundary case: 10 rows inside the
window, no filters, gives `messagesPerSecond = 2`. -/
theorem c4_witness :
    filtersHeadValid ([] : List TblFilter) ∧
    matchedCount 0 [] tenRows = 10 ∧
    getMessagesPerSecond 0 [] tenRows = .ok 2 := by
  refine ⟨trivial, by rfl, ?_⟩
  have h := c4_messages_per_second 0 [] tenRows trivial
  rw [h, show matchedCount 0 [] tenRows = 10 from rfl,
    show ((10 : ℕ) : ℚ) / 5 = ((2 : ℤ) : ℚ) by norm_num, Int.ceil_intCast]

/-- C5 fails as stated: a batch containing an event with a cyclic
(non-serializable) `args` makes `buildRow` throw — the failure is not
caught, no sentinel string is substituted, and the batch's other events
are not converted. -/
theorem c5_counterexample :
    buildRow (fun _ => "") [cyclicEvent, sampleEvent "a" 0] = .error () := by rfl

/-- C5 (amended): `buildRow` has no local catch around
`JSON.stringify(r.args)`: if any event of the batch carries a
non-serializable `args`, the serialization failure propagates out of
`buildRow` and the whole batch produces no rows. -/
theorem c5_amended_no_catch (fmtTime : Int → String) (events : List DataRow)
    (e : DataRow) (h1 : e ∈ events) (h2 : jsonArgs e.args = .error ()) :
    buildRow fmtTime events = .error () := by
  induction events with
  | nil => cases h1
  | cons a rest ih =>
    unfold buildRow buildOne
    cases h1 with
    | head =>
      rw [h2]
      rfl
    | tail _ hmem =>
      cases ha : jsonArgs a.args with
      | error err => cases err; rfl
      | ok av => rw [ih hmem]; rfl

/-- Witness for the amended C5: a well-formed first event does not save a
batch whose second event is cyclic. -/
theorem c5_witness :
    cyclicEvent ∈ [sampleEvent "a" 0, cyclicEvent] ∧
    jsonArgs cyclicEvent.args = .error () ∧
    buildRow fmtT [sampleEvent "a" 0, cyclicEvent] = .error () := by
  refine ⟨?_, rfl, ?_⟩
  · exact List.mem_cons_of_mem _ (List.mem_cons_self _ _)
  · exact c5_amended_no_catch fmtT [sampleEvent "a" 0, cyclicEvent] cyclicEvent
      (List.mem_cons_of_mem _ (List.mem_cons_self _ _)) rfl

/-- C6 fails as stated: at a concrete row inside the window, a filter
whose key names no column makes the per-row predicate throw a `TypeError`
(`row.columns[key]` is `undefined`, so `.value` faults) instead of
returning `false`. -/
theorem c6_counterexample :
    rowPredicate 0 [{ key := "bogus", value := "x" }] (sampleRow "a" 0) =
      .error () := by rfl

/-- C6 (amended): a filter key outside the six-column map causes a thrown
`TypeError`, not a non-match; the graceful case is a filter whose key
names an existing column whose stored `value` is `undefined` or different
from the target — that row is a match failure (`false`) without error. -/
theorem c6_amended_missing_column (now : Int) (row : MessageRow)
    (f : TblFilter) (rest : List TblFilter)
    (h : ¬ (now - row.timestamp > 5 * 1000)) :
    (columnValue row f.key = none →
      rowPredicate now (f :: rest) row = .error ()) ∧
    ∀ v, columnValue row f.key = some v → v ≠ some f.value →
      rowPredicate now (f :: rest) row = .ok false := by
  constructor
  · intro hc
    simp only [rowPredicate, if_neg h, matchesFilters, evalFilterExpr, hc]
  · intro v hv hne
    simp only [rowPredicate, if_neg h, matchesFilters, evalFilterExpr, hv]
    exact congrArg Except.ok (beq_eq_false_iff_ne.mpr hne)

/-- Witness for the amended C6: concrete throwing and non-matching
cases. -/
theorem c6_witness :
    (¬ ((0 : Int) - (sampleRow "a" 0).timestamp > 5 * 1000)) ∧
    columnValue (sampleRow "a" 0) "bogus" = none ∧
    rowPredicate 0 [{ key := "bogus", value := "x" }] (sampleRow "a" 0) = .error () ∧
    columnValue (sampleRow "a" 0) "type" = some (some "t") ∧
    rowPredicate 0 [{ key := "type", value := "zzz" }] (sampleRow "a" 0) = .ok false := by
  refine ⟨by decide, rfl, ?_, rfl, ?_⟩
  · exact (c6_amended_missing_column 0 (sampleRow "a" 0)
      { key := "bogus", value := "x" } [] (by decide)).1 rfl
  · exact (c6_amended_missing_column 0 (sampleRow "a" 0)
      { key := "type", value := "zzz" } [] (by decide)).2 (some "t") rfl (by decide)

/-- C7: for every persisted state and payload, the reducer invoked with
any method other than `"newRow"` returns the persisted state unchanged
(it is a pure function; the equality result is the whole effect). -/
theorem c7_unknown_method (fmtTime : Int → String) (now : Int)
    (ps : PersistedState) (method : String) (payload : List DataRow)
    (h : method ≠ "newRow") :
    persistedStateReducer fmtTime now ps method payload = .ok ps := by
  unfold persistedStateReducer
  rw [if_neg h]

/-- Witness for C7 at a concrete unknown method name. -/
theorem c7_witness :
    ("someOtherEvent" : String) ≠ "newRow" ∧
    persistedStateReducer fmtT 0 { messageRows := [sampleRow "a" 0] }
        "someOtherEvent" [sampleEvent "b" 1] =
      .ok { messageRows := [sampleRow "a" 0] } := by
  refine ⟨by decide, ?_⟩
  exact c7_unknown_method fmtT 0 { messageRows := [sampleRow "a" 0] }
    "someOtherEvent" [sampleEvent "b" 1] (by decide)

/-- C8: over any sequence of successful appends, the retained rows are a
sublist (same relative order, nothing reordered) of the pre-existing rows
followed by all ingested batches in ingestion order: earlier appends
precede later ones, batch-internal order is kept, and eviction only
removes rows. -/
theorem c8_order_preserved (fmtTime : Int → String)
    (batches : List (Int × List DataRow)) :
    ∀ ps ps' : PersistedState, applyAppends fmtTime ps batches = .ok ps' →
      ps'.messageRows.Sublist (ps.messageRows ++ ingestedRows fmtTime batches) := by
  induction batches with
  | nil =>
    intro ps ps' h
    unfold applyAppends at h
    injection h with h'
    subst h'
    rw [show ingestedRows fmtTime [] = [] from rfl, List.append_nil]
  | cons b rest ih =>
    intro ps ps' h
    unfold applyAppends at h
    cases hr : persistedStateReducer fmtTime b.1 ps "newRow" b.2 with
    | error e =>
      rw [hr] at h
      exact Except.noConfusion h
    | ok ps1 =>
      rw [hr] at h
      simp only [Bind.bind, Except.bind] at h
      have hsub := ih ps1 ps' h
      rw [persistedStateReducer_newRow] at hr
      cases hb : buildRow fmtTime b.2 with
      | error e =>
        rw [hb] at hr
        exact Except.noConfusion hr
      | ok nr =>
        rw [hb] at hr
        simp only [Except.map] at hr
        injection hr with hr'
        have h1 : ps1.messageRows.Sublist (ps.messageRows ++ nr) := by
          rw [← hr']
          exact List.filter_sublist _
        have hing : ingestedRows fmtTime (b :: rest) = nr ++ ingestedRows fmtTime rest := by
          unfold ingestedRows
          rw [List.map_cons, List.flatten_cons, hb]
          rfl
        rw [hing, ← List.append_assoc]
        exact hsub.trans (List.Sublist.append h1 (List.Sublist.refl _))

/-- Two concrete appends. -/
def twoBatches : List (Int × List DataRow) :=
  [(10, [sampleEvent "a" 1]), (20, [sampleEvent "b" 2])]

/-- Witness for C8: both appended rows survive, in ingestion order. -/
theorem c8_witness :
    applyAppends fmtT { messageRows := [] } twoBatches =
      .ok { messageRows := [sampleRow "a" 1, sampleRow "b" 2] } ∧
    [sampleRow "a" 1, sampleRow "b" 2].Sublist
      (([] : List MessageRow) ++ ingestedRows fmtT twoBatches) := by
  refine ⟨by rfl, ?_⟩
  exact c8_order_preserved fmtT twoBatches { messageRows := [] }
    { messageRows := [sampleRow "a" 1, sampleRow "b" 2] } rfl

/-- C9: after `clear` the retained row sequence is empty and the sidebar
resolves to the no-selection placeholder; generally, any selected key
matching no row's key (evicted or cleared) renders the placeholder, not an
error. -/
theorem c9_clear_no_selection (s : State) :
    ((clear s).2.messageRows = [] ∧
      renderSidebar (clear s).1.selectedId (clear s).2.messageRows =
        .placeholder) ∧
    ∀ (sel : String) (rows : List MessageRow),
      (∀ r ∈ rows, r.key ≠ sel) →
        renderSidebar (some sel) rows = .placeholder := by
  refine ⟨⟨rfl, rfl⟩, ?_⟩
  intro sel rows h
  cases hf : rows.find? (fun row => row.key == sel) with
  | none => simp only [renderSidebar]; rw [hf]
  | some m =>
    simp only [renderSidebar]
    rw [hf]
    exfalso
    have hp := List.find?_some hf
    have hm := List.mem_of_find?_eq_some hf
    exact h m hm (by simpa using hp)

/-- A concrete component state with an active selection. -/
def s9 : State :=
  { selectedId := some "a", filters := [], messagesPerSecond := 0,
    bandwidthPerSecond := 0 }

/-- Witness for C9: a cleared state and a dangling selected key. -/
theorem c9_witness :
    (clear s9).2.messageRows = [] ∧
    renderSidebar (clear s9).1.selectedId (clear s9).2.messageRows =
      .placeholder ∧
    (∀ r ∈ [sampleRow "a" 0], r.key ≠ "z") ∧
    renderSidebar (some "z") [sampleRow "a" 0] = .placeholder := by
  refine ⟨(c9_clear_no_selection s9).1.1, (c9_clear_no_selection s9).1.2,
    by decide, ?_⟩
  exact (c9_clear_no_selection s9).2 "z" [sampleRow "a" 0] (by decide)

/-- C10: highlighting with an empty key list leaves the state untouched;
a non-empty key list changes only `selectedId`, to the first key. -/
theorem c10_highlight_first_key (s : State) (k : String) (ks : List String) :
    onRowHighlighted s [] = s ∧
    onRowHighlighted s (k :: ks) = { s with selectedId := some k } :=
  ⟨rfl, rfl⟩

end BridgeSpy
